import Mathlib

/-!
Verification development for the perltidy-more editor extension.

The development shallowly embeds the two source files of the repository:

* `src/extension.ts` — range resolution for the three entry points
  (range formatting, on-type formatting, the explicit `tidy` command);
* `src/formatter.ts` — the formatter service.  The file holds two revisions
  of the service: the original one (`formatV1`, no process cache) and the
  subsequent revision with the per-workspace worker cache
  (`createWorker`, `isFormatEnabled`, `standBy`, `formatV2`).

Editor state (documents, positions, ranges), the configuration surface, the
filesystem and the external process are modelled explicitly; the asynchronous
process interaction of one `format` call is modelled by the single process
event (`ProcEvent`) that settles its promise, and the mutable
`workerCacheMap` by explicit state passing (`PoolState`).
-/

/-- A zero-based (line, character) position, after `vscode.Position`. -/
structure Position where
  line : Nat
  character : Nat
deriving DecidableEq

/-- A text range, after `vscode.Range`.  The source's `end` field is named
`stop` because `end` is reserved in Lean. -/
structure Range where
  start : Position
  stop : Position
deriving DecidableEq

/-- A selection, after `vscode.Selection` (only `start`/`end` are used). -/
structure Selection where
  start : Position
  stop : Position
deriving DecidableEq

/-- The parts of `vscode.Uri` the sources read. -/
structure Uri where
  scheme : String
  path : String
  fsPath : String
deriving DecidableEq

/-- A workspace folder, after `vscode.WorkspaceFolder`. -/
structure WorkspaceFolder where
  uri : Uri
deriving DecidableEq

/-- A text document: its uri and its text split into lines
(`document.lineAt(n).text` is the `n`-th entry). -/
structure Document where
  uri : Uri
  lines : List String
deriving DecidableEq

/-- The `perltidy-more` configuration section: `executable`, `profile`,
`autoDisable`, with their defaults read by `config.get`. -/
structure Config where
  executable : String
  profile : String
  autoDisable : Bool
deriving DecidableEq

/-- The external environment of the extension: the configuration snapshot,
the filesystem (`existsSync`) and the host's workspace lookup
(`vscode.workspace.getWorkspaceFolder`). -/
structure Env where
  config : Config
  fsExists : String → Bool
  getWorkspaceFolder : Uri → Option WorkspaceFolder

/-- Model of `document.lineAt n` for an in-range `n`; out-of-range lines read as
empty (documents are only consulted at valid lines by the sources). -/
def lineAt (doc : Document) (n : Nat) : String :=
  doc.lines.getD n ""

/-- The first `n` characters of `s`. -/
def strTake (s : String) (n : Nat) : String :=
  String.mk (s.toList.take n)

/-- The string `s` without its first `n` characters. -/
def strDrop (s : String) (n : Nat) : String :=
  String.mk (s.toList.drop n)

/-- Characters `a` (inclusive) to `b` (exclusive) of `s`. -/
def strSlice (s : String) (a b : Nat) : String :=
  String.mk ((s.toList.drop a).take (b - a))

/-- Model of `document.getText(range)` for a well-formed range (`start ≤ end`, both
inside the document): the text between the two positions, with `"\n"`
separating lines. -/
def getText (doc : Document) (r : Range) : String :=
  if r.start.line = r.stop.line then
    strSlice (lineAt doc r.start.line) r.start.character r.stop.character
  else
    String.intercalate "\n"
      (strDrop (lineAt doc r.start.line) r.start.character
        :: (((doc.lines.drop (r.start.line + 1)).take
              (r.stop.line - (r.start.line + 1)))
            ++ [strTake (lineAt doc r.stop.line) r.stop.character]))

/-- The whitespace class of the JavaScript regex `\s`, restricted to the
ASCII range (the wider Unicode space characters play no role here). -/
def isJsWhitespace (c : Char) : Bool :=
  c = ' ' || c = '\t' || c = '\n' || c = '\r' || c = '\x0b' || c = '\x0c'

/-- Truthiness of `s.match(/^\s*$/)`: every character of `s` is whitespace
(in particular it holds for the empty string). -/
def matchesWhitespaceOnly (s : String) : Bool :=
  s.toList.all isJsWhitespace

/-- Function `get_range` from `src/extension.ts`: a non-empty selection wins over
the given range; a `null` range means the whole document. -/
def get_range (document : Document) (range : Option Range)
    (selection : Option Selection) : Range :=
  let range :=
    match selection with
    | some sel =>
      if ¬ (sel.start = sel.stop) then some { start := sel.start, stop := sel.stop }
      else range
    | none => range
  match range with
  | some r => r
  | none =>
    let lastLine := document.lines.length - 1
    { start := ⟨0, 0⟩, stop := ⟨lastLine, (lineAt document lastLine).length⟩ }

/-- The range computed by `provideDocumentRangeFormattingEdits` in
`src/extension.ts`: expand the start of the range to the beginning of its
line when the text between the line start and the range start is
whitespace-only; then `get_range(document, range, null)`. -/
def provideDocumentRangeFormattingEditsRange (document : Document) (range : Range) : Range :=
  let indentRange : Range := { start := ⟨range.start.line, 0⟩, stop := range.start }
  let range :=
    if matchesWhitespaceOnly (getText document indentRange) then
      { start := ⟨range.start.line, 0⟩, stop := range.stop }
    else range
  get_range document (some range) none

/-- Model of `String.prototype.lastIndexOf` for a single character, on a list of
characters: the greatest index holding `c`, or `-1` when there is none. -/
def lastIndexOfList (c : Char) : List Char → Int
  | [] => -1
  | x :: xs =>
    let r := lastIndexOfList c xs
    if 0 ≤ r then r + 1
    else if x = c then 0 else -1

/-- Model of `s.lastIndexOf(c)`. -/
def lastIndexOf (s : String) (c : Char) : Int :=
  lastIndexOfList c s.toList

/-- The backward scan of `provideOnTypeFormattingEdits`: starting at line
`n` and walking down to line `0`, stop at the first line whose text
contains `';'` (`lastIndexOf(';') >= 0`) and return the start of the line
after it; return `(0, 0)` when no line contains `';'`. -/
def scanBack (doc : Document) : Nat → Position
  | 0 => if 0 ≤ lastIndexOf (lineAt doc 0) ';' then ⟨1, 0⟩ else ⟨0, 0⟩
  | n + 1 =>
    if 0 ≤ lastIndexOf (lineAt doc (n + 1)) ';' then ⟨n + 2, 0⟩
    else scanBack doc n

/-- The range computed by `provideOnTypeFormattingEdits` in
`src/extension.ts`: the loop starts at `position.line - 1` (it is not
entered when the trigger is on line 0) and the range ends at the
triggering position. -/
def provideOnTypeFormattingEditsRange (document : Document) (position : Position) : Range :=
  let start : Position :=
    match position.line with
    | 0 => ⟨0, 0⟩
    | n + 1 => scanBack document n
  { start := start, stop := position }

/-! ## Formatter service (`src/formatter.ts`) -/

/-- A thrown/rejected JavaScript error, reduced to the data the sources
construct and inspect: the class of the error (`new FormatError(msg)`
gives class `"FormatError"`) and its message. -/
structure JsError where
  className : String
  message : String
deriving DecidableEq

/-- Construction `new FormatError(message)` from `src/error.ts`. -/
def formatErr (message : String) : JsError :=
  { className := "FormatError", message := message }

/-- An error delivered to a worker's `error` handler: its surface
representation, plus whether `isErrnoException(e)` holds and its `code`. -/
structure ProcError where
  err : JsError
  isErrno : Bool
  code : String
deriving DecidableEq

/-- The single event that settles one `format` call's promise: either the
worker's `error` event fires, or its `close` event fires with an exit code
and the accumulated `stdout`/`stderr` data. -/
inductive ProcEvent where
  | errored (e : ProcError)
  | closed (exitCode : Int) (stdoutData : String) (stderrData : String)
deriving DecidableEq

/-- A spawned perltidy process handle: `id` is the spawn-order identity of
the underlying OS process, and `executable`, `args`, `cwd` are the spawn
parameters. -/
structure Worker where
  id : Nat
  executable : String
  args : List String
  cwd : String
deriving DecidableEq

/-- The mutable state of the cached revision: the `workerCacheMap`
(an association from workspace to worker) and the number of processes
spawned so far (`nextId` is the id the next spawn receives). -/
structure PoolState where
  cache : List (WorkspaceFolder × Worker)
  nextId : Nat
deriving DecidableEq

/-- Model of `workerCacheMap.get w`. -/
def cacheGet (cache : List (WorkspaceFolder × Worker)) (w : WorkspaceFolder) : Option Worker :=
  (cache.find? fun p => decide (p.1 = w)).map Prod.snd

/-- Model of `workerCacheMap.delete w`. -/
def cacheDelete (cache : List (WorkspaceFolder × Worker)) (w : WorkspaceFolder) :
    List (WorkspaceFolder × Worker) :=
  cache.filter fun p => ! decide (p.1 = w)

/-- Model of `workerCacheMap.set w worker`. -/
def cacheSet (cache : List (WorkspaceFolder × Worker)) (w : WorkspaceFolder)
    (worker : Worker) : List (WorkspaceFolder × Worker) :=
  (w, worker) :: cacheDelete cache w

/-- Model of `path.isAbsolute` (POSIX). -/
def isAbsolute (p : String) : Bool :=
  p.startsWith "/"

/-- Model of `path.join a b`, simplified to the cases the sources produce (no `.`
or `..` normalisation is needed for the joined paths of the claims). -/
def joinPath (a b : String) : String :=
  if a = "" then b else if b = "" then a else a ++ "/" ++ b

/-- Function `createWorker` from `src/formatter.ts` (identical in both revisions):
build the argument list, resolve the working directory and the executable,
and spawn.  Spawning is modelled as allocating the next process id from
the pool state. -/
def createWorker (env : Env) (w : WorkspaceFolder) (st : PoolState) : Worker × PoolState :=
  let executable := env.config.executable
  let profile := env.config.profile
  let args : List String := ["--standard-output", "-no-add-terminal-newline"]
  -- `if (profile) args.push("--profile=" + profile)`
  let args := if profile = "" then args else args ++ ["--profile=" ++ profile]
  let cwd := w.uri.fsPath
  -- `if (currentWorkspace.uri.scheme != "file") options.cwd = "."`
  let cwd := if w.uri.scheme = "file" then cwd else "."
  -- relative executable: resolve against the workspace when it exists there
  let resolvedPair : String × String :=
    if isAbsolute executable then (executable, cwd)
    else
      let resolved := joinPath w.uri.path executable
      if env.fsExists resolved then (resolved, w.uri.path)
      else (executable, cwd)
  ({ id := st.nextId, executable := resolvedPair.1, args := args, cwd := resolvedPair.2 },
   { st with nextId := st.nextId + 1 })

/-- Function `isFormatEnabled` from the cached revision of `src/formatter.ts`:
false exactly when `autoDisable` is set and no `.perltidyrc` exists
directly under the workspace root (the two nested `if`s are flattened
into one condition). -/
def isFormatEnabled (env : Env) (w : WorkspaceFolder) : Bool :=
  if env.config.autoDisable && ! env.fsExists (joinPath w.uri.path ".perltidyrc") then
    false
  else
    true

/-- Method `Formatter.standBy` from the cached revision: throw when the
workspace is undefined or formatting is disabled; otherwise return the
cached worker, or create, cache and return a new one.  The returned state
is the `workerCacheMap` (and spawn count) after the call. -/
def standBy (env : Env) (st : PoolState) (workspace : Option WorkspaceFolder) :
    Except JsError Worker × PoolState :=
  match workspace with
  | none =>
    (.error (formatErr "Format failed. File must be belong to one workspace at least."), st)
  | some w =>
    if isFormatEnabled env w = false then
      (.error (formatErr "Format failed. File must be belong to one workspace at least."), st)
    else
      match cacheGet st.cache w with
      | some result => (.ok result, st)
      | none =>
        let created := createWorker env w st
        (.ok created.1, { created.2 with cache := cacheSet created.2.cache w created.1 })

/-- The `close` handler's settlement in both revisions: a non-zero exit
code rejects with a `FormatError` naming the exit code (and the
accumulated `stderr` data when there is any); exit code `0` resolves with
the accumulated `stdout` data. -/
def onCloseResult (code : Int) (result_text error_text : String) :
    Except JsError (Option String) :=
  if code ≠ 0 then
    if error_text = "" then
      .error (formatErr ("Format failed. Perltidy exited with exit code " ++ toString code ++ "."))
    else
      .error (formatErr ("Format failed. Perltidy exited with exit code " ++ toString code
        ++ ". Error messages: " ++ error_text))
  else
    .ok (some result_text)

/-- The `error` handler's settlement in both revisions: an `ENOENT` errno
exception rejects with a `FormatError` naming the executable (with an
installation hint when it is the default `perltidy`); any other error is
rejected unchanged. -/
def onErrorResult (executable : String) (e : ProcError) :
    Except JsError (Option String) :=
  if e.isErrno && e.code == "ENOENT" then
    if executable = "perltidy" then
      .error (formatErr ("Format failed. Executable file (\x60" ++ executable
        ++ "\x60) is not found. You probably forgot to install perltidy."))
    else
      .error (formatErr ("Format failed. Executable file (\x60" ++ executable
        ++ "\x60) is not found."))
  else
    .error e.err

/-- The eviction performed by the cached revision's `error`/`close`
handlers: `workerCacheMap.delete(currentWorkspace)` followed by a
fire-and-forget `standBy(currentWorkspace)` whose resolved worker is
dropped (and whose exception, if any, leaves the state as deleted). -/
def evictAndRestandBy (env : Env) (st : PoolState) (w : WorkspaceFolder) : PoolState :=
  let deleted : PoolState := { st with cache := cacheDelete st.cache w }
  (standBy env deleted (some w)).2

/-- The outcome of one `format` call: its settlement (`.ok none` models a
resolution with `undefined`), the pool state it leaves behind, and the
`stdin` writes it performed (worker id and data), recording every
interaction with an external process. -/
structure FormatOutcome where
  result : Except JsError (Option String)
  state : PoolState
  stdinWrites : List (Nat × String)

/-- The cached revision's handler block for the worker obtained from
`standBy`: `stdin` receives the extracted text, then the settling event
decides the outcome; both handlers first evict and re-`standBy`. -/
def handleEventV2 (env : Env) (w : WorkspaceFolder) (worker : Worker) (st1 : PoolState)
    (text : String) (ev : ProcEvent) : FormatOutcome :=
  match ev with
  | .errored e =>
    { result := onErrorResult worker.executable e,
      state := evictAndRestandBy env st1 w,
      stdinWrites := [(worker.id, text)] }
  | .closed code result_text error_text =>
    { result := onCloseResult code result_text error_text,
      state := evictAndRestandBy env st1 w,
      stdinWrites := [(worker.id, text)] }

/-- Method `Formatter.format` of the cached (second) revision of
`src/formatter.ts`.  An empty extracted text resolves to `""` at once.
Otherwise the workspace is looked up and `standBy` is awaited: on `none`
it throws its workspace error with the state untouched (inlined here, cf.
`standBy_none`), and a `standBy` exception rejects the call; on success
the handler block runs. -/
def formatV2 (env : Env) (st : PoolState) (document : Document) (range : Range)
    (ev : ProcEvent) : FormatOutcome :=
  let text := getText document range
  if text.length = 0 then
    { result := .ok (some ""), state := st, stdinWrites := [] }
  else
    match env.getWorkspaceFolder document.uri with
    | none =>
      { result := .error (formatErr "Format failed. File must be belong to one workspace at least."),
        state := st, stdinWrites := [] }
    | some w =>
      match standBy env st (some w) with
      | (.error e, st1) => { result := .error e, state := st1, stdinWrites := [] }
      | (.ok worker, st1) => handleEventV2 env w worker st1 text ev

/-- Method `Formatter.format` of the first revision of `src/formatter.ts` (no
worker cache): the auto-disable check is inside `format` itself and
resolves with `undefined`; a fresh worker is spawned on every call and the
handlers perform no cache eviction. -/
def formatV1 (env : Env) (st : PoolState) (document : Document) (range : Range)
    (ev : ProcEvent) : FormatOutcome :=
  let text := getText document range
  if text.length = 0 then
    { result := .ok (some ""), state := st, stdinWrites := [] }
  else
    match env.getWorkspaceFolder document.uri with
    | none =>
      { result := .error (formatErr "Format failed. File must be belong to one workspace at least."),
        state := st, stdinWrites := [] }
    | some w =>
      -- `if (config.get('autoDisable', false)) { if (!existsSync(...)) return undefined }`
      if env.config.autoDisable && ! env.fsExists (joinPath w.uri.path ".perltidyrc") then
        { result := .ok none, state := st, stdinWrites := [] }
      else
        let created := createWorker env w st
        match ev with
        | .errored e =>
          { result := onErrorResult created.1.executable e,
            state := created.2, stdinWrites := [(created.1.id, text)] }
        | .closed code result_text error_text =>
          { result := onCloseResult code result_text error_text,
            state := created.2, stdinWrites := [(created.1.id, text)] }

/-- In `formatV2`, a `none` workspace reaches `standBy` unchanged: the
inlined `none` branch of `formatV2` agrees with `standBy`. -/
theorem standBy_none (env : Env) (st : PoolState) :
    standBy env st none
      = (.error (formatErr "Format failed. File must be belong to one workspace at least."), st) :=
  rfl

/-! ## Concrete fixtures used by witnesses and counterexamples -/

/-- A local-filesystem workspace root. -/
def wsA : WorkspaceFolder :=
  { uri := { scheme := "file", path := "/ws", fsPath := "/ws" } }

/-- The initial pool state: empty cache, no process spawned yet. -/
def st0 : PoolState := { cache := [], nextId := 0 }

/-- Default configuration with the conventional executable name. -/
def cfgPlain : Config := { executable := "perltidy", profile := "", autoDisable := false }

/-- Environment: default configuration, nothing on disk, every document
owned by `wsA`. -/
def envPlain : Env :=
  { config := cfgPlain, fsExists := fun _ => false, getWorkspaceFolder := fun _ => some wsA }

/-- Environment with `autoDisable` on and no `.perltidyrc` on disk. -/
def envAuto : Env :=
  { config := { executable := "perltidy", profile := "", autoDisable := true },
    fsExists := fun _ => false, getWorkspaceFolder := fun _ => some wsA }

/-- Environment where no document belongs to any workspace. -/
def envNoWs : Env :=
  { config := cfgPlain, fsExists := fun _ => false, getWorkspaceFolder := fun _ => none }

/-- A one-line document with text `"foo"`. -/
def docFoo : Document := { uri := wsA.uri, lines := ["foo"] }

/-- The range covering the whole of `docFoo`. -/
def rFoo : Range := { start := ⟨0, 0⟩, stop := ⟨0, 3⟩ }

/-- A two-line document whose whole text is a single newline. -/
def docNl : Document := { uri := wsA.uri, lines := ["", ""] }

/-- The range covering the whole of `docNl`; its extracted text is `"\n"`. -/
def rNl : Range := { start := ⟨0, 0⟩, stop := ⟨1, 0⟩ }

/-- A document whose first three lines contain the other on-type trigger
characters `}`, `)`, `]` but no semicolon. -/
def docBraces : Document :=
  { uri := wsA.uri, lines := ["my $x = 1\x7d", "f()", "a]", "print"] }

/-! ## Cache and string helper lemmas -/

theorem cacheGet_delete (cache : List (WorkspaceFolder × Worker)) (w : WorkspaceFolder) :
    cacheGet (cacheDelete cache w) w = none := by
  have h : (cacheDelete cache w).find? (fun p => decide (p.1 = w)) = none := by
    rw [List.find?_eq_none]
    intro x hx
    simp only [cacheDelete] at hx
    have hmem := List.of_mem_filter hx
    simpa using hmem
  simp [cacheGet, h]

theorem cacheGet_set (cache : List (WorkspaceFolder × Worker)) (w : WorkspaceFolder)
    (worker : Worker) : cacheGet (cacheSet cache w worker) w = some worker := by
  simp [cacheGet, cacheSet, List.find?]

theorem createWorker_id (env : Env) (w : WorkspaceFolder) (st : PoolState) :
    (createWorker env w st).1.id = st.nextId := rfl

theorem createWorker_nextId (env : Env) (w : WorkspaceFolder) (st : PoolState) :
    (createWorker env w st).2.nextId = st.nextId + 1 := rfl

theorem createWorker_cache (env : Env) (w : WorkspaceFolder) (st : PoolState) :
    (createWorker env w st).2.cache = st.cache := rfl

/-- String `hay` contains `pat` as a contiguous substring. -/
def strContainsSub (hay pat : String) : Prop :=
  ∃ pre post : String, hay = pre ++ pat ++ post

theorem str_append_assoc (a b c : String) : (a ++ b) ++ c = a ++ (b ++ c) := by
  cases a with
  | mk la =>
    cases b with
    | mk lb =>
      cases c with
      | mk lc =>
        show String.mk ((la ++ lb) ++ lc) = String.mk (la ++ (lb ++ lc))
        rw [List.append_assoc]

theorem strContainsSub_middle (a b c : String) : strContainsSub (a ++ b ++ c) b :=
  ⟨a, c, rfl⟩

/-- A worker as cached before an eviction (spawned as process `0`). -/
def wDead : Worker :=
  { id := 0, executable := "perltidy",
    args := ["--standard-output", "-no-add-terminal-newline"], cwd := "/ws" }

/-- A pool state holding `wDead` for `wsA`, one process spawned so far. -/
def stOne : PoolState := { cache := [(wsA, wDead)], nextId := 1 }

/-- Modelled from the claim's words ("no printable content"): every
character of the text is a control character or blank (code point at most
U+0020, e.g. a newline), so the text contains no printable character.
Compare with the guard actually in `formatV1`/`formatV2`, which tests for
zero length only. -/
def hasNoPrintableContent (s : String) : Bool :=
  s.toList.all fun c => c.toNat ≤ 0x20

/-! ## Claims -/

/-- C8: every worker is spawned with argument list exactly
`["--standard-output", "-no-add-terminal-newline"]`, with
`"--profile=<profile>"` appended if and only if the configured profile is
non-empty. -/
theorem createWorker_args (env : Env) (w : WorkspaceFolder) (st : PoolState) :
    (createWorker env w st).1.args
      = ["--standard-output", "-no-add-terminal-newline"]
        ++ (if env.config.profile = "" then [] else ["--profile=" ++ env.config.profile]) := by
  by_cases h : env.config.profile = "" <;> simp [createWorker, h]

/-- C1: with `autoDisable` on and no `.perltidyrc` under the workspace
root, the cached revision's `format` does not resolve to `undefined`: it
rejects with a `FormatError` (whose message moreover wrongly speaks of
workspace membership), because `standBy` throws on the disabled path.
The first revision — and `format`'s own doc comment, which promises
`undefined` when formatting is skipped — resolve with `undefined`
(`.ok none`) on the same input. -/
theorem formatV2_autoDisable_rejects :
    (formatV2 envAuto st0 docFoo rFoo (.closed 0 "foo" "")).result
        = .error (formatErr "Format failed. File must be belong to one workspace at least.")
      ∧ (formatV1 envAuto st0 docFoo rFoo (.closed 0 "foo" "")).result = .ok none :=
  ⟨rfl, rfl⟩

/-- C2 counterexample: for a document belonging to no workspace, `format`
rejects with an error of class `FormatError` — the same class used for
process failures — not with a distinct `ConfigurationError` class. -/
theorem formatV2_no_workspace_error_class :
    (formatV2 envNoWs st0 docFoo rFoo (.closed 0 "foo" "")).result
        = .error { className := "FormatError",
                   message := "Format failed. File must be belong to one workspace at least." }
      ∧ "FormatError" ≠ "ConfigurationError" :=
  ⟨rfl, by decide⟩

/-- C2 (amended): for every document that belongs to no workspace (with a
range of non-empty text, so the empty-range short-circuit does not fire),
`format` fails with a `FormatError` whose message states that the file
must belong to a workspace. -/
theorem formatV2_no_workspace (env : Env) (st : PoolState) (doc : Document) (range : Range)
    (ev : ProcEvent) (hws : env.getWorkspaceFolder doc.uri = none)
    (htext : (getText doc range).length ≠ 0) :
    (formatV2 env st doc range ev).result
        = .error (formatErr "Format failed. File must be belong to one workspace at least.")
      ∧ strContainsSub "Format failed. File must be belong to one workspace at least."
          "must be belong to one workspace" := by
  constructor
  · simp [formatV2, htext, hws]
  · exact ⟨"Format failed. File ", " at least.", by decide⟩

theorem formatV2_no_workspace_witness :
    envNoWs.getWorkspaceFolder docFoo.uri = none
      ∧ (getText docFoo rFoo).length ≠ 0
      ∧ ((formatV2 envNoWs st0 docFoo rFoo (.closed 0 "foo" "")).result
          = .error (formatErr "Format failed. File must be belong to one workspace at least.")
        ∧ strContainsSub "Format failed. File must be belong to one workspace at least."
            "must be belong to one workspace") :=
  ⟨rfl, by decide,
    formatV2_no_workspace envNoWs st0 docFoo rFoo (.closed 0 "foo" "") rfl (by decide)⟩

/-- C3 counterexample: the whole text of `docNl` is one newline — no
printable content — yet `format` spawns a worker (two spawns end up
recorded: the one used and its eager replacement), writes the text to its
stdin, and resolves with the process output (here `"X"`), not with the
empty string.  The code's short-circuit tests for zero length, not for
printable content. -/
theorem formatV2_nonprintable_spawns :
    hasNoPrintableContent (getText docNl rNl) = true
      ∧ (formatV2 envPlain st0 docNl rNl (.closed 0 "X" "")).stdinWrites = [(0, "\n")]
      ∧ (formatV2 envPlain st0 docNl rNl (.closed 0 "X" "")).state.nextId = 2
      ∧ (formatV2 envPlain st0 docNl rNl (.closed 0 "X" "")).result = .ok (some "X")
      ∧ ("X" : String) ≠ "" :=
  ⟨by decide, rfl, rfl, rfl, by decide⟩

/-- C3 (amended): for every range whose extracted text is empty
(zero-length), `format` resolves to the empty string, leaves the pool
state untouched (no process is spawned) and writes to no process's
stdin. -/
theorem formatV2_empty_text (env : Env) (st : PoolState) (doc : Document) (range : Range)
    (ev : ProcEvent) (h : (getText doc range).length = 0) :
    (formatV2 env st doc range ev).result = .ok (some "")
      ∧ (formatV2 env st doc range ev).state = st
      ∧ (formatV2 env st doc range ev).stdinWrites = [] := by
  refine ⟨?_, ?_, ?_⟩ <;> simp [formatV2, h]

theorem formatV2_empty_text_witness :
    (getText docFoo { start := ⟨0, 1⟩, stop := ⟨0, 1⟩ }).length = 0
      ∧ ((formatV2 envPlain st0 docFoo { start := ⟨0, 1⟩, stop := ⟨0, 1⟩ }
            (.closed 0 "X" "")).result = .ok (some "")
        ∧ (formatV2 envPlain st0 docFoo { start := ⟨0, 1⟩, stop := ⟨0, 1⟩ }
            (.closed 0 "X" "")).state = st0
        ∧ (formatV2 envPlain st0 docFoo { start := ⟨0, 1⟩, stop := ⟨0, 1⟩ }
            (.closed 0 "X" "")).stdinWrites = []) :=
  ⟨by decide,
    formatV2_empty_text envPlain st0 docFoo { start := ⟨0, 1⟩, stop := ⟨0, 1⟩ }
      (.closed 0 "X" "") (by decide)⟩

/-- C10: when `standBy` is called with an undefined workspace, or with
`autoDisable` active and no `.perltidyrc` under the workspace root, it
throws and returns the pool state exactly as it was: the cache map is
unchanged and `nextId` is unchanged, so no process was spawned on this
error path. -/
theorem standBy_guard (env : Env) (st : PoolState) (w : WorkspaceFolder)
    (hauto : env.config.autoDisable = true)
    (hrc : env.fsExists (joinPath w.uri.path ".perltidyrc") = false) :
    standBy env st none
        = (.error (formatErr "Format failed. File must be belong to one workspace at least."), st)
      ∧ standBy env st (some w)
        = (.error (formatErr "Format failed. File must be belong to one workspace at least."), st) := by
  refine ⟨rfl, ?_⟩
  simp [standBy, isFormatEnabled, hauto, hrc]

theorem standBy_guard_witness :
    envAuto.config.autoDisable = true
      ∧ envAuto.fsExists (joinPath wsA.uri.path ".perltidyrc") = false
      ∧ (standBy envAuto stOne none
          = (.error (formatErr "Format failed. File must be belong to one workspace at least."),
             stOne)
        ∧ standBy envAuto stOne (some wsA)
          = (.error (formatErr "Format failed. File must be belong to one workspace at least."),
             stOne)) :=
  ⟨rfl, rfl, standBy_guard envAuto stOne wsA rfl rfl⟩

theorem str_append_empty (a : String) : a ++ "" = a := by
  cases a with
  | mk la =>
    show String.mk (la ++ []) = String.mk la
    rw [List.append_nil]

theorem strContainsSub_suffix (a b : String) : strContainsSub (a ++ b) b :=
  ⟨a, "", by rw [str_append_empty]⟩

theorem strContainsSub_second (a b c d : String) : strContainsSub (a ++ b ++ c ++ d) b :=
  ⟨a, c ++ d, by rw [str_append_assoc (a ++ b) c d]⟩

/-- C6: once a call reaches the worker (document owned by a workspace,
formatting enabled, non-empty text), the settlement of `format` on the
`close` event is the close handler's: exit code `0` resolves the
accumulated stdout data verbatim; a non-zero exit code rejects with a
`FormatError` whose message contains the exit code and, when stderr data
was accumulated, that data verbatim, and which for empty stderr data is
exactly the fixed sentence naming only the exit code. -/
theorem formatV2_close_status (env : Env) (st : PoolState) (doc : Document) (range : Range)
    (w : WorkspaceFolder) (code : Int) (out err : String)
    (hws : env.getWorkspaceFolder doc.uri = some w)
    (hen : isFormatEnabled env w = true)
    (htext : (getText doc range).length ≠ 0) :
    (formatV2 env st doc range (.closed code out err)).result = onCloseResult code out err
      ∧ (code = 0 ∧ onCloseResult code out err = .ok (some out)
        ∨ code ≠ 0
          ∧ ∃ msg,
              onCloseResult code out err = .error { className := "FormatError", message := msg }
                ∧ strContainsSub msg (toString code)
                ∧ (err = ""
                    ∧ msg = "Format failed. Perltidy exited with exit code "
                        ++ toString code ++ "."
                  ∨ err ≠ "" ∧ strContainsSub msg err)) := by
  constructor
  · simp only [formatV2]
    rw [if_neg htext, hws]
    cases hc : cacheGet st.cache w with
    | none => simp [standBy, hen, hc, handleEventV2]
    | some worker => simp [standBy, hen, hc, handleEventV2]
  · by_cases h0 : code = 0
    · exact Or.inl ⟨h0, by simp [onCloseResult, h0]⟩
    · refine Or.inr ⟨h0, ?_⟩
      by_cases herr : err = ""
      · refine ⟨"Format failed. Perltidy exited with exit code " ++ toString code ++ ".",
          by simp [onCloseResult, h0, herr, formatErr], ?_, Or.inl ⟨herr, rfl⟩⟩
        exact ⟨"Format failed. Perltidy exited with exit code ", ".", rfl⟩
      · refine ⟨"Format failed. Perltidy exited with exit code " ++ toString code
            ++ ". Error messages: " ++ err,
          by simp [onCloseResult, h0, herr, formatErr], ?_, Or.inr ⟨herr, ?_⟩⟩
        · exact strContainsSub_second _ _ _ _
        · exact strContainsSub_suffix _ _

theorem formatV2_close_status_witness :
    envPlain.getWorkspaceFolder docFoo.uri = some wsA
      ∧ isFormatEnabled envPlain wsA = true
      ∧ (getText docFoo rFoo).length ≠ 0
      ∧ ((formatV2 envPlain st0 docFoo rFoo
            (.closed 2 "" "syntax error at line 2")).result
              = onCloseResult 2 "" "syntax error at line 2"
        ∧ ((2 : Int) = 0 ∧ onCloseResult 2 "" "syntax error at line 2" = .ok (some "")
          ∨ (2 : Int) ≠ 0
            ∧ ∃ msg,
                onCloseResult 2 "" "syntax error at line 2"
                    = .error { className := "FormatError", message := msg }
                  ∧ strContainsSub msg (toString (2 : Int))
                  ∧ ("syntax error at line 2" = ""
                      ∧ msg = "Format failed. Perltidy exited with exit code "
                          ++ toString (2 : Int) ++ "."
                    ∨ "syntax error at line 2" ≠ ""
                      ∧ strContainsSub msg "syntax error at line 2"))) :=
  ⟨rfl, rfl, by decide,
    formatV2_close_status envPlain st0 docFoo rFoo wsA 2 "" "syntax error at line 2"
      rfl rfl (by decide)⟩

/-- C7: whatever event settles the call (`error`, or `close` with any exit
code), the handler's state update first removes the workspace's entry
from the cache (the intermediate map holds no entry for it) and then runs
`standBy`, which — formatting being enabled, as it was when the dead
worker was obtained — caches a freshly spawned worker, distinct from
every previously spawned worker and in particular from the dead one; a
subsequent `standBy` (hence a subsequent `format`) for the same workspace
returns that fresh worker, never the dead handle. -/
theorem formatV2_eviction (env : Env) (st1 : PoolState) (w : WorkspaceFolder) (worker : Worker)
    (text : String) (ev : ProcEvent)
    (hen : isFormatEnabled env w = true) (hid : worker.id < st1.nextId) :
    cacheGet (cacheDelete st1.cache w) w = none
      ∧ (handleEventV2 env w worker st1 text ev).state
          = (standBy env { st1 with cache := cacheDelete st1.cache w } (some w)).2
      ∧ ∃ fresh : Worker,
          cacheGet (handleEventV2 env w worker st1 text ev).state.cache w = some fresh
            ∧ fresh.id = st1.nextId
            ∧ fresh ≠ worker
            ∧ standBy env (handleEventV2 env w worker st1 text ev).state (some w)
                = (.ok fresh, (handleEventV2 env w worker st1 text ev).state) := by
  have hstate : (handleEventV2 env w worker st1 text ev).state = evictAndRestandBy env st1 w := by
    cases ev <;> rfl
  have hmiss : cacheGet (cacheDelete st1.cache w) w = none := cacheGet_delete _ _
  refine ⟨hmiss, by rw [hstate]; rfl, ?_⟩
  have hdel : ({ st1 with cache := cacheDelete st1.cache w } : PoolState).cache
      = cacheDelete st1.cache w := rfl
  have hsb : standBy env { st1 with cache := cacheDelete st1.cache w } (some w)
      = (.ok (createWorker env w { st1 with cache := cacheDelete st1.cache w }).1,
         { (createWorker env w { st1 with cache := cacheDelete st1.cache w }).2 with
            cache := cacheSet
              (createWorker env w { st1 with cache := cacheDelete st1.cache w }).2.cache w
              (createWorker env w { st1 with cache := cacheDelete st1.cache w }).1 }) := by
    simp [standBy, hen, hdel, hmiss]
  have hstate2 : (handleEventV2 env w worker st1 text ev).state
      = { (createWorker env w { st1 with cache := cacheDelete st1.cache w }).2 with
            cache := cacheSet
              (createWorker env w { st1 with cache := cacheDelete st1.cache w }).2.cache w
              (createWorker env w { st1 with cache := cacheDelete st1.cache w }).1 } := by
    rw [hstate]
    show (standBy env { st1 with cache := cacheDelete st1.cache w } (some w)).2 = _
    rw [hsb]
  refine ⟨(createWorker env w { st1 with cache := cacheDelete st1.cache w }).1, ?_, rfl, ?_, ?_⟩
  · rw [hstate2]
    exact cacheGet_set _ _ _
  · intro h
    rw [← h] at hid
    exact lt_irrefl _ hid
  · rw [hstate2]
    simp [standBy, hen, cacheGet_set]

theorem formatV2_eviction_witness :
    isFormatEnabled envPlain wsA = true
      ∧ wDead.id < stOne.nextId
      ∧ (cacheGet (cacheDelete stOne.cache wsA) wsA = none
        ∧ (handleEventV2 envPlain wsA wDead stOne "foo" (.closed 0 "foo" "")).state
            = (standBy envPlain { stOne with cache := cacheDelete stOne.cache wsA }
                (some wsA)).2
        ∧ ∃ fresh : Worker,
            cacheGet (handleEventV2 envPlain wsA wDead stOne "foo"
                (.closed 0 "foo" "")).state.cache wsA = some fresh
              ∧ fresh.id = stOne.nextId
              ∧ fresh ≠ wDead
              ∧ standBy envPlain
                  (handleEventV2 envPlain wsA wDead stOne "foo" (.closed 0 "foo" "")).state
                  (some wsA)
                  = (.ok fresh,
                     (handleEventV2 envPlain wsA wDead stOne "foo" (.closed 0 "foo" "")).state)) :=
  ⟨rfl, by decide,
    formatV2_eviction envPlain stOne wsA wDead "foo" (.closed 0 "foo" "") rfl (by decide)⟩

/-- Characterisation of the backward scan from line `n`: either some line
at most `n` contains a semicolon, the greatest such line is `m`, and the
scan answers the start of line `m + 1`; or no line at most `n` contains a
semicolon and the scan answers the document start. -/
theorem scanBack_spec (doc : Document) (n : Nat) :
    (∃ m, m ≤ n ∧ 0 ≤ lastIndexOf (lineAt doc m) ';'
        ∧ (∀ k, m < k → k ≤ n → lastIndexOf (lineAt doc k) ';' < 0)
        ∧ scanBack doc n = ⟨m + 1, 0⟩)
      ∨ ((∀ k, k ≤ n → lastIndexOf (lineAt doc k) ';' < 0)
        ∧ scanBack doc n = ⟨0, 0⟩) := by
  induction n with
  | zero =>
    by_cases h : 0 ≤ lastIndexOf (lineAt doc 0) ';'
    · exact Or.inl ⟨0, Nat.le_refl 0, h,
        fun k hk1 hk2 => absurd (Nat.lt_of_lt_of_le hk1 hk2) (Nat.lt_irrefl 0),
        by simp [scanBack, h]⟩
    · refine Or.inr ⟨?_, by simp [scanBack, h]⟩
      intro k hk
      have hk0 : k = 0 := Nat.le_zero.mp hk
      subst hk0
      exact not_le.mp h
  | succ n ih =>
    by_cases h : 0 ≤ lastIndexOf (lineAt doc (n + 1)) ';'
    · exact Or.inl ⟨n + 1, Nat.le_refl _, h,
        fun k hk1 hk2 => absurd (Nat.lt_of_lt_of_le hk1 hk2) (Nat.lt_irrefl _),
        by simp [scanBack, h]⟩
    · rcases ih with ⟨m, hm, hsemi, hnone, heq⟩ | ⟨hnone, heq⟩
      · refine Or.inl ⟨m, Nat.le_succ_of_le hm, hsemi, ?_, by simp [scanBack, h, heq]⟩
        intro k hk1 hk2
        by_cases hk3 : k = n + 1
        · subst hk3
          exact not_le.mp h
        · exact hnone k hk1 (by omega)
      · refine Or.inr ⟨?_, by simp [scanBack, h, heq]⟩
        intro k hk
        by_cases hk3 : k = n + 1
        · subst hk3
          exact not_le.mp h
        · exact hnone k (by omega)

/-- C4: the on-type format range ends at the triggering position and
starts at the beginning of the line after the most recent line before the
trigger line whose text contains the statement terminator `';'`
(`lastIndexOf(';') >= 0`), or at the document start `(0, 0)` when no line
before the trigger line contains it. -/
theorem onType_range_resolution (doc : Document) (pos : Position) :
    (provideOnTypeFormattingEditsRange doc pos).stop = pos
      ∧ ((∃ m, m < pos.line ∧ 0 ≤ lastIndexOf (lineAt doc m) ';'
            ∧ (∀ k, m < k → k < pos.line → lastIndexOf (lineAt doc k) ';' < 0)
            ∧ (provideOnTypeFormattingEditsRange doc pos).start = ⟨m + 1, 0⟩)
        ∨ ((∀ k, k < pos.line → lastIndexOf (lineAt doc k) ';' < 0)
            ∧ (provideOnTypeFormattingEditsRange doc pos).start = ⟨0, 0⟩)) := by
  obtain ⟨pl, pc⟩ := pos
  refine ⟨rfl, ?_⟩
  cases pl with
  | zero =>
    exact Or.inr ⟨fun k hk => absurd hk (Nat.not_lt_zero k), rfl⟩
  | succ n =>
    have hstart : (provideOnTypeFormattingEditsRange doc ⟨n + 1, pc⟩).start = scanBack doc n :=
      rfl
    rcases scanBack_spec doc n with ⟨m, hm, hsemi, hnone, heq⟩ | ⟨hnone, heq⟩
    · exact Or.inl ⟨m, Nat.lt_succ_of_le hm, hsemi,
        fun k h1 h2 => hnone k h1 (Nat.lt_succ_iff.mp h2), by rw [hstart, heq]⟩
    · exact Or.inr ⟨fun k hk => hnone k (Nat.lt_succ_iff.mp hk), by rw [hstart, heq]⟩

/-- C9: the backward scan looks for `';'` only: when no line before the
trigger line contains `';'`, the resolved range runs from the document
start `(0, 0)` to the trigger position — whatever other characters (such
as `}`, `)`, `]`) the earlier lines contain. -/
theorem onType_semicolon_only (doc : Document) (pos : Position)
    (h : ∀ k, k < pos.line → lastIndexOf (lineAt doc k) ';' < 0) :
    provideOnTypeFormattingEditsRange doc pos = { start := ⟨0, 0⟩, stop := pos } := by
  obtain ⟨pl, pc⟩ := pos
  cases pl with
  | zero => rfl
  | succ n =>
    have hz : scanBack doc n = ⟨0, 0⟩ := by
      rcases scanBack_spec doc n with ⟨m, hm, hsemi, _, _⟩ | ⟨_, heq⟩
      · exact absurd hsemi (not_le.mpr (h m (Nat.lt_succ_of_le hm)))
      · exact heq
    show ({ start := scanBack doc n, stop := ⟨n + 1, pc⟩ } : Range) = _
    rw [hz]

theorem onType_semicolon_only_witness :
    (∀ k, k < (3 : Nat) → lastIndexOf (lineAt docBraces k) ';' < 0)
      ∧ provideOnTypeFormattingEditsRange docBraces ⟨3, 2⟩
          = { start := ⟨0, 0⟩, stop := ⟨3, 2⟩ } :=
  ⟨by decide, onType_semicolon_only docBraces ⟨3, 2⟩ (by decide)⟩

/-- The regex test of the range-formatting provider, on the text between
the start of line `sl` and character `sc` of that line, equals
whitespace-only-ness of the first `sc` characters of the line. -/
theorem matches_indent (doc : Document) (sl sc : Nat) :
    matchesWhitespaceOnly (getText doc { start := ⟨sl, 0⟩, stop := ⟨sl, sc⟩ })
      = ((lineAt doc sl).toList.take sc).all isJsWhitespace := by
  simp [getText, matchesWhitespaceOnly, strSlice, String.toList]

/-- C5: the range-formatting provider keeps the end of the candidate
range unchanged, either moves the start back to column 0 of its line or
keeps it, and moves it to column 0 exactly when every character between
the true line start and the candidate start is whitespace. -/
theorem rangeFormatting_expansion (doc : Document) (r : Range) :
    (provideDocumentRangeFormattingEditsRange doc r).stop = r.stop
      ∧ ((provideDocumentRangeFormattingEditsRange doc r).start = ⟨r.start.line, 0⟩
          ∨ (provideDocumentRangeFormattingEditsRange doc r).start = r.start)
      ∧ ((provideDocumentRangeFormattingEditsRange doc r).start = ⟨r.start.line, 0⟩
          ↔ ((lineAt doc r.start.line).toList.take r.start.character).all isJsWhitespace
              = true) := by
  obtain ⟨⟨sl, sc⟩, sp⟩ := r
  simp only [provideDocumentRangeFormattingEditsRange, get_range]
  rw [matches_indent doc sl sc]
  by_cases h : ((lineAt doc sl).toList.take sc).all isJsWhitespace = true
  · rw [if_pos h]
    exact ⟨rfl, Or.inl rfl, ⟨fun _ => h, fun _ => rfl⟩⟩
  · have hsc : sc ≠ 0 := by
      intro h0
      subst h0
      simp at h
    rw [if_neg h]
    refine ⟨rfl, Or.inr rfl, ?_, ?_⟩
    · intro heq
      exact absurd (congrArg Position.character heq) hsc
    · intro hall
      exact absurd hall h

example :
    provideDocumentRangeFormattingEditsRange { uri := wsA.uri, lines := ["  do \x7b"] }
        { start := ⟨0, 2⟩, stop := ⟨0, 6⟩ }
      = { start := ⟨0, 0⟩, stop := ⟨0, 6⟩ } := by decide

example :
    provideDocumentRangeFormattingEditsRange { uri := wsA.uri, lines := ["return do \x7b"] }
        { start := ⟨0, 7⟩, stop := ⟨0, 11⟩ }
      = { start := ⟨0, 7⟩, stop := ⟨0, 11⟩ } := by decide

example :
    provideOnTypeFormattingEditsRange
        { uri := wsA.uri, lines := ["a;", "b", "c;", "d", "e", "f"] } ⟨5, 1⟩
      = { start := ⟨3, 0⟩, stop := ⟨5, 1⟩ } := by decide
